import Mathlib

/-!
Verification of the ceros cooperative runtime.

The definitions below are a shallow embedding of the scheduler in
`src/runtime/mod.rs` (`Runtime::new`, `Runtime::get_next`,
`Runtime::context_switch`, `Runtime::yield_next`, `Runtime::spawn`),
the stack guard in `src/runtime/internal.rs`, the lifecycle tick loop in
`src/system/mod.rs` (`os_init`), and the voltage clamp in
`src/hardware/devices/smart/motor.rs` (`SmartMotor::move_voltage`).

The thread descriptor type (`runtime/thread.rs`) and the generic runner
(`runtime/runner.rs` with `current_task` / `kill_task` / `yield_t`) are not
part of the available source tree; where they are needed they are modelled
from the specification and marked as such in their doc comments.

Rust panics (index out of bounds, explicit `panic!`) are modelled with
`Except String`: `.error msg` is a panic carrying the diagnostic, `.ok v`
is a normal return. Loops are written with explicit fuel; every call site
passes fuel strictly larger than the number of table slots, which bounds
the number of iterations any execution of the embedded loops can take.
-/

namespace Ceros

/-- Modelled from the spec: the task-descriptor states of §3 (`Available`,
`Ready`, `Running`, `Dead`); `runtime/thread.rs` is not in the source tree,
but `runtime/mod.rs` matches on exactly these constructors. -/
inductive ThreadState
  | Available
  | Ready
  | Running
  | Dead
deriving DecidableEq, Repr

/-- Modelled from the spec: a task descriptor (§3) restricted to the fields
the scheduler claims observe: the scheduling state and the entry point
recorded at initialization (entry points are identified by an opaque id).
The stack and saved context are not needed by any claim about scheduling
state and are abstracted away. -/
structure Thread where
  state : ThreadState
  entry : Option Nat
deriving DecidableEq, Repr

instance : Inhabited Thread := ⟨⟨ThreadState.Available, none⟩⟩

/-- Modelled from the spec: `Thread::new` / `Default::default()` produces a
free slot (§3: a slot is `Available` until `spawn` initializes it). -/
def Thread.new : Thread := ⟨ThreadState.Available, none⟩

/-- Modelled from the spec: `Thread::initialize(entry)` (§4.1) constructs a
fresh context beginning at `entry` and sets `state = Ready` (shortened
name; the source method is `initialize`). -/
def Thread.init (e : Nat) : Thread := ⟨ThreadState.Ready, some e⟩

/-- Constant `MAX_THREADS` from `src/runtime/mod.rs`. -/
def MAX_THREADS : Nat := 8

/-- The scheduler state of `Runtime` in `src/runtime/mod.rs`: the fixed
table of threads (a list of length `MAX_THREADS`) and the index of the
current thread. -/
structure Runtime where
  threads : List Thread
  current : Nat
deriving DecidableEq, Repr

/-- Writing the state field of slot `i`, keeping the other fields;
`ts[i].state = st` in Rust. Out-of-range writes cannot happen at the call
sites that use this helper (they are guarded by a successful read). -/
def setState (ts : List Thread) (i : Nat) (st : ThreadState) : List Thread :=
  match ts.get? i with
  | none => ts
  | some t => ts.set i { t with state := st }

/-- Embedding of `Runtime::new`: slot 0 is the OS thread, set to `Running`; the other
slots are default (free) threads; `current = 0`. -/
def Runtime.new : Runtime :=
  { threads := (⟨ThreadState.Running, none⟩ : Thread) ::
      List.replicate (MAX_THREADS - 1) Thread.new,
    current := 0 }

/-- The loop body of `Runtime::get_next`, with explicit fuel. Each
iteration does exactly what the Rust loop does: `i += 1`; reset to 0 only
when `i > threads.len()` (the source's off-by-one wrap test); read
`threads[i].state` (an out-of-range read is a Rust panic, modelled as
`.error`); return `Some i` on `Ready`, `None` on `Running`; otherwise
return `None` if `i` has come back to `current`, else continue. -/
def getNextLoop (ts : List Thread) (current : Nat) : Nat → Nat → Except String (Option Nat)
  | _, 0 => Except.error "fuel exhausted"
  | i, fuel + 1 =>
    let i1 := i + 1
    let i2 := if i1 > ts.length then 0 else i1
    match ts.get? i2 with
    | none => Except.error "index out of bounds"
    | some t =>
      match t.state with
      | ThreadState.Ready => Except.ok (some i2)
      | ThreadState.Running => Except.ok none
      | _ =>
        if i2 = current then Except.ok none
        else getNextLoop ts current i2 fuel

/-- Embedding of `Runtime::get_next`. The fuel `length + 2` strictly exceeds the number
of iterations any execution can take before returning or panicking. -/
def Runtime.get_next (r : Runtime) : Except String (Option Nat) :=
  getNextLoop r.threads r.current r.current (r.threads.length + 2)

/-- Embedding of `Runtime::context_switch(next)`: saves the old `current`, stores
`next` into `current`, sets the old current slot to `Ready` and the `next`
slot to `Running`. The actual stack-pointer switch (`get_sp` /
`switch_from`, in the missing `thread.rs`) transfers control and has no
further effect on the scheduler state; the caller `yield_next` records the
invocation. Out-of-range slot accesses are Rust panics (`.error`). -/
def Runtime.context_switch (r : Runtime) (next : Nat) : Except String Runtime :=
  match r.threads.get? r.current with
  | none => Except.error "index out of bounds"
  | some tcur =>
    let ts1 := r.threads.set r.current { tcur with state := ThreadState.Ready }
    match ts1.get? next with
    | none => Except.error "index out of bounds"
    | some tnext =>
      Except.ok { threads := ts1.set next { tnext with state := ThreadState.Running },
                  current := next }

/-- Embedding of `Runtime::yield_next`: computes `get_next`; on `Some n` performs the
context switch. The second component records the context-switch invocation
(`some n` = the primitive was invoked towards slot `n`, `none` = no switch
happened and the caller keeps running). -/
def Runtime.yield_next (r : Runtime) : Except String (Runtime × Option Nat) :=
  match r.get_next with
  | Except.error e => Except.error e
  | Except.ok none => Except.ok (r, none)
  | Except.ok (some n) =>
    match r.context_switch n with
    | Except.error e => Except.error e
    | Except.ok r1 => Except.ok (r1, some n)

/-- The loop body of `Runtime::spawn`, with explicit fuel. Each iteration:
`pos += 1`; reset to 0 when `pos >= threads.len()` (the correct wrap test,
unlike `get_next`); return `None` (no slot) when `pos` has come back to
`current`; break with `Some pos` when `threads[pos].state == Available`. -/
def spawnLoop (ts : List Thread) (current : Nat) : Nat → Nat → Except String (Option Nat)
  | _, 0 => Except.error "fuel exhausted"
  | pos, fuel + 1 =>
    let p1 := pos + 1
    let p2 := if p1 ≥ ts.length then 0 else p1
    if p2 = current then Except.ok none
    else
      match ts.get? p2 with
      | none => Except.error "index out of bounds"
      | some t =>
        if t.state = ThreadState.Available then Except.ok (some p2)
        else spawnLoop ts current p2 fuel

/-- Embedding of `Runtime::spawn(entry)`: scans for the next available slot and
re-initializes it. The Rust function returns `()` in both the found and
not-found cases; correspondingly the embedding returns the (possibly
unchanged) state with no error indication when no slot is found. -/
def Runtime.spawn (r : Runtime) (entry : Nat) : Except String Runtime :=
  match spawnLoop r.threads r.current r.current (r.threads.length + 2) with
  | Except.error e => Except.error e
  | Except.ok none => Except.ok r
  | Except.ok (some pos) =>
    Except.ok { r with threads := r.threads.set pos (Thread.init entry) }

/-- Embedding of `guard` from `src/runtime/internal.rs`: the stack sentinel reached when
a task's entry function returns; its whole body is
`panic!("End of program.")`, modelled as an always-error computation that
never produces a unit return. -/
def guard : Except String Unit := Except.error "End of program."

/-- Embedding of `SmartMotor::move_voltage` from
`src/hardware/devices/smart/motor.rs`, restricted to the value the
hardware is commanded with: `voltage.min(127).max(-127)` on `i32`,
modelled exactly on `Int` (no `i32` overflow is possible in this
expression). -/
def SmartMotor.move_voltage (voltage : Int) : Int :=
  max (min voltage 127) (-127)

/-- A state with `current = 3` running and every other slot free or dead:
no slot other than the current one is `Ready`. -/
def c1State : Runtime :=
  ⟨[Thread.new, Thread.new, ⟨ThreadState.Dead, none⟩, ⟨ThreadState.Running, none⟩,
    Thread.new, Thread.new, ⟨ThreadState.Dead, none⟩, Thread.new], 3⟩

/-- A state with `current = 2` running and every other slot free:
no slot other than the current one is `Ready`, so a yield should be a
no-op. -/
def c4State : Runtime :=
  ⟨[Thread.new, Thread.new, ⟨ThreadState.Running, none⟩, Thread.new,
    Thread.new, Thread.new, Thread.new, Thread.new], 2⟩

/-- A state in which the running task is slot 7 and slot 0 is `Ready`:
round-robin order requires the next yield to wrap around and hand control
to slot 0. -/
def c7State : Runtime :=
  ⟨[⟨ThreadState.Ready, none⟩, Thread.new, Thread.new, Thread.new,
    Thread.new, Thread.new, Thread.new, ⟨ThreadState.Running, none⟩], 7⟩

/-- Spawn wrap-around start state: slot 0 = kernel (ready), slot 1 =
current running task, slots 2..7 free. -/
def c8Start : Runtime :=
  ⟨[⟨ThreadState.Ready, none⟩, ⟨ThreadState.Running, none⟩, Thread.new, Thread.new,
    Thread.new, Thread.new, Thread.new, Thread.new], 1⟩

/-- The state after one spawn from `c8Start`: slot 2 taken. -/
def c8S2 : Runtime :=
  ⟨[⟨ThreadState.Ready, none⟩, ⟨ThreadState.Running, none⟩, Thread.init 20, Thread.new,
    Thread.new, Thread.new, Thread.new, Thread.new], 1⟩

/-- The state after two spawns: slots 2 and 3 taken. -/
def c8S3 : Runtime :=
  ⟨[⟨ThreadState.Ready, none⟩, ⟨ThreadState.Running, none⟩, Thread.init 20,
    Thread.init 21, Thread.new, Thread.new, Thread.new, Thread.new], 1⟩

/-- The state after three spawns: slots 2..4 taken. -/
def c8S4 : Runtime :=
  ⟨[⟨ThreadState.Ready, none⟩, ⟨ThreadState.Running, none⟩, Thread.init 20,
    Thread.init 21, Thread.init 22, Thread.new, Thread.new, Thread.new], 1⟩

/-- The state after four spawns: slots 2..5 taken. -/
def c8S5 : Runtime :=
  ⟨[⟨ThreadState.Ready, none⟩, ⟨ThreadState.Running, none⟩, Thread.init 20,
    Thread.init 21, Thread.init 22, Thread.init 23, Thread.new,
    Thread.new], 1⟩

/-- The state after five spawns: slots 2..6 taken. -/
def c8S6 : Runtime :=
  ⟨[⟨ThreadState.Ready, none⟩, ⟨ThreadState.Running, none⟩, Thread.init 20,
    Thread.init 21, Thread.init 22, Thread.init 23,
    Thread.init 24, Thread.new], 1⟩

/-- The state after six spawns: slots 2..7 taken, table now full. -/
def c8S7 : Runtime :=
  ⟨[⟨ThreadState.Ready, none⟩, ⟨ThreadState.Running, none⟩, Thread.init 20,
    Thread.init 21, Thread.init 22, Thread.init 23,
    Thread.init 24, Thread.init 25], 1⟩

/-- Error value of the spec's generic spawn contract. -/
inductive SpawnError
  | full
deriving DecidableEq, Repr

/-- Modelled from the spec: the generic spawn contract of §4.2,
`spawn(entry) -> Result<(), Full>` — scan the table starting just after
`current_index`, wrapping around, for the first slot with
`state == Available`, excluding the current slot itself; if none is found
return a `Full` error with no mutation, otherwise initialize that slot.
This definition follows the spec's words; it both models the runner's
spawn operation (whose source is not in the tree) and serves as the
comparison point for the error-reporting part of the source's
`Runtime::spawn`. -/
def spawn_spec (r : Runtime) (e : Nat) : Except SpawnError Runtime :=
  match ((List.range (r.threads.length - 1)).map
      (fun k => (r.current + 1 + k) % r.threads.length)).find?
      (fun i => decide ((r.threads.get? i).map Thread.state
        = some ThreadState.Available)) with
  | none => Except.error SpawnError.full
  | some pos =>
    Except.ok { r with threads := r.threads.set pos (Thread.init e) }

/-- A full table: the current slot (0) is running and every other slot is
occupied (`Ready` or `Dead`), with no `Available` slot anywhere. -/
def c3FullState : Runtime :=
  ⟨[⟨ThreadState.Running, none⟩, ⟨ThreadState.Ready, some 1⟩, ⟨ThreadState.Ready, some 2⟩,
    ⟨ThreadState.Ready, some 3⟩, ⟨ThreadState.Ready, some 4⟩, ⟨ThreadState.Ready, some 5⟩,
    ⟨ThreadState.Ready, some 6⟩, ⟨ThreadState.Dead, none⟩], 0⟩

/-- A state for the C9 witness: slot 0 running (current), slot 1 ready. -/
def c9State : Runtime :=
  ⟨[⟨ThreadState.Running, none⟩, ⟨ThreadState.Ready, some 7⟩, Thread.new, Thread.new,
    Thread.new, Thread.new, Thread.new, Thread.new], 0⟩

/-- Modelled from the spec: the generic runner's task-table capacity
(`MAX_TASKS`, imported by `src/system/mod.rs` from the runner module that
is not in the source tree); §3 fixes the design default at 8. -/
def MAX_TASKS : Nat := 8

/-- Modelled from the spec: `kill(index)` (§4.2) forces `state = Available`
for a non-current slot, abandoning its contents. Killing the current task
or the kernel slot is disallowed by contract; call sites below guard
accordingly. The runner's `kill_task` is not in the source tree. -/
def Runtime.kill_task (r : Runtime) (i : Nat) : Runtime :=
  { r with threads := setState r.threads i ThreadState.Available }

/-- The kill loop of `os_init` (`src/system/mod.rs`): for every
`i in 0..MAX_TASKS`, if `i != rt.current_task()` then `rt.kill_task(i)`. -/
def killExceptCurrent (r : Runtime) : Runtime :=
  (List.range MAX_TASKS).foldl
    (fun s i => if i ≠ s.current then s.kill_task i else s) r

/-- One competition-status tick of the `os_init` loop
(`src/system/mod.rs`, the branch on a changed status): given the
last-observed status `saved` and the freshly fetched status `fetched`
(statuses are opaque equality-comparable values, modelled as `Nat`), when
they differ the loop records the new value, kills all tasks except the
current one and spawns the stored user entry again (the runner's spawn
result is discarded by the source). The unconditional trailing yield of
the loop is the separate `Runtime.yield_next`. -/
def osTick (r : Runtime) (saved fetched userEntry : Nat) : Runtime × Nat :=
  if fetched ≠ saved then
    ((match spawn_spec (killExceptCurrent r) userEntry with
      | Except.ok s => s
      | Except.error _ => killExceptCurrent r), fetched)
  else (r, saved)

/-- A state for the C5 witness: kernel running at slot 0, a mix of ready,
dead and free slots elsewhere. -/
def c5State : Runtime :=
  ⟨[⟨ThreadState.Running, none⟩, ⟨ThreadState.Ready, some 9⟩, ⟨ThreadState.Dead, none⟩,
    Thread.new, ⟨ThreadState.Ready, some 3⟩, Thread.new, Thread.new,
    ⟨ThreadState.Ready, some 4⟩], 0⟩

/-- The scheduler invariant: the table has its fixed size, the current
index is in range, and a slot is `Running` exactly when it is the current
slot (so exactly one slot is `Running`, and it is `current_index`). -/
def Inv (r : Runtime) : Prop :=
  r.threads.length = MAX_THREADS ∧ r.current < MAX_THREADS ∧
  ∀ i, i < MAX_THREADS →
    ((r.threads.get? i).map Thread.state = some ThreadState.Running ↔ i = r.current)

/-- The scheduler operations observable from outside a context switch:
a completed `spawn`, a completed `yield_next` (covering `get_next` and
`context_switch`; a panicking call produces no successor state), and a
`kill` of a non-current, non-kernel slot (the kill operation lives in the
runner module absent from the source tree and is modelled from the spec,
§4.2, including its contract preconditions). -/
inductive Step : Runtime → Runtime → Prop
  | spawn (e : Nat) {r r1 : Runtime} (h : r.spawn e = Except.ok r1) : Step r r1
  | yieldNext (o : Option Nat) {r r1 : Runtime}
      (h : r.yield_next = Except.ok (r1, o)) : Step r r1
  | kill (i : Nat) {r : Runtime} (h1 : i ≠ r.current) (h2 : i ≠ 0) :
      Step r (r.kill_task i)

/-- States reachable from `Runtime::new` by any sequence of operations. -/
inductive Reachable : Runtime → Prop
  | init : Reachable Runtime.new
  | step {r r1 : Runtime} (hr : Reachable r) (hs : Step r r1) : Reachable r1

/-- The state reached from `Runtime::new` by spawning entry 5 and then
yielding to it: slot 0 kernel now `Ready`, slot 1 `Running`. -/
def c2State : Runtime :=
  ⟨[⟨ThreadState.Ready, none⟩, ⟨ThreadState.Running, some 5⟩, Thread.new, Thread.new,
    Thread.new, Thread.new, Thread.new, Thread.new], 1⟩

/-- C1: the claim says that with no `Ready` slot other than the current
one, `get_next` wraps fully around and returns none without ever accessing
an index outside the task table. The code violates this: its wrap test is
written with a strict comparison, so the scan reads slot index 8 of the
8-entry table, a Rust index-out-of-bounds panic. Evaluated here on
`c1State` (current = 3, nothing `Ready`): `get_next` panics instead of
returning none. -/
theorem get_next_wrap_reads_out_of_bounds :
    c1State.get_next = Except.error "index out of bounds" := rfl

/-- C4: the claim says that with no `Ready` slot other than the current
one, `yield_next` is a no-op. On `c4State` (current = 2 running, all other
slots free) the code instead panics: `get_next` reads slot index 8 of the
8-entry table before completing its wrap-around. -/
theorem yield_next_empty_panics :
    c4State.yield_next = Except.error "index out of bounds" := rfl

/-- C6: the stack guard reached when a task entry function returns is
unconditionally fatal: it produces the diagnostic panic message
"End of program." and never returns normally to its caller. -/
theorem guard_always_fatal :
    guard = Except.error "End of program." ∧ guard ≠ Except.ok () := by
  constructor
  · rfl
  · intro h
    cases h

/-- C7: the claim's round-robin fairness property requires a yield from the
running task in slot 7 to wrap around and schedule the `Ready` task in
slot 0 (here k = 1: one `Ready` task, one yield). The code instead panics:
the scan's off-by-one wrap test makes it read slot index 8 of the 8-entry
table before wrapping, so no sequence of yields that needs to wrap past
the end of the table can complete. -/
theorem round_robin_wrap_panics :
    c7State.yield_next = Except.error "index out of bounds" := rfl

/-- C8: starting from slot 0 = kernel, slot 1 = current running task,
slots 2..7 free, successive calls to `spawn` select slots 2, 3, 4, 5, 6, 7
in ascending order, and a further call wraps past index 7 back toward 0
without selecting slot 0 (occupied by the kernel task) or the current
slot, leaving the table unchanged. -/
theorem spawn_wraparound_order :
    c8Start.spawn 20 = Except.ok c8S2 ∧
    c8S2.spawn 21 = Except.ok c8S3 ∧
    c8S3.spawn 22 = Except.ok c8S4 ∧
    c8S4.spawn 23 = Except.ok c8S5 ∧
    c8S5.spawn 24 = Except.ok c8S6 ∧
    c8S6.spawn 25 = Except.ok c8S7 ∧
    c8S7.spawn 26 = Except.ok c8S7 :=
  ⟨rfl, rfl, rfl, rfl, rfl, rfl, rfl⟩

/-- Any position with a successful indexed read is inside the table. -/
theorem lt_length_of_get?_eq_some {ts : List Thread} {i : Nat} {t : Thread}
    (h : ts.get? i = some t) : i < ts.length := by
  by_contra hn
  rw [List.get?_eq_none.2 (Nat.le_of_not_lt hn)] at h
  cases h

/-- When the spawn scan breaks with a slot index, that slot is a readable
table entry in state `Available`, and it is not the current slot. -/
theorem spawnLoop_ok_some {ts : List Thread} {c : Nat} :
    ∀ fuel p pos, spawnLoop ts c p fuel = Except.ok (some pos) →
      pos ≠ c ∧ ∃ t, ts.get? pos = some t ∧ t.state = ThreadState.Available := by
  intro fuel
  induction fuel with
  | zero =>
    intro p pos h
    simp [spawnLoop] at h
  | succ f ih =>
    intro p pos h
    rw [spawnLoop] at h
    set p2 := if p + 1 ≥ ts.length then 0 else p + 1 with hp2
    split at h
    · simp at h
    · rename_i hne
      split at h
      · simp at h
      · rename_i t hx
        split at h
        · rename_i hav
          simp only [Except.ok.injEq, Option.some.injEq] at h
          subst h
          exact ⟨hne, t, hx, hav⟩
        · exact ih _ _ h

/-- When the ready scan returns a slot index, that slot is a readable
table entry in state `Ready`. -/
theorem getNextLoop_ok_some {ts : List Thread} {c : Nat} :
    ∀ fuel i n, getNextLoop ts c i fuel = Except.ok (some n) →
      ∃ t, ts.get? n = some t ∧ t.state = ThreadState.Ready := by
  intro fuel
  induction fuel with
  | zero =>
    intro i n h
    simp [getNextLoop] at h
  | succ f ih =>
    intro i n h
    rw [getNextLoop] at h
    set i2 := if i + 1 > ts.length then 0 else i + 1 with hi2
    split at h
    · simp at h
    · rename_i t hx
      split at h
      · rename_i hst
        simp only [Except.ok.injEq, Option.some.injEq] at h
        subst h
        exact ⟨t, hx, hst⟩
      · simp at h
      · split at h
        · simp at h
        · exact ih _ _ h

/-- With the table holding no `Available` slot away from `current`, the
spawn scan walks all the way back around to `current` and reports that no
slot was found, for any fuel at least the remaining scan distance. -/
theorem spawnLoop_no_available {ts : List Thread} {c : Nat} (hc : c < ts.length)
    (hfull : ∀ i, i < ts.length → i ≠ c →
      (ts.get? i).map Thread.state ≠ some ThreadState.Available) :
    ∀ fuel p, p < ts.length →
      (if p < c then c - p else c + ts.length - p) ≤ fuel →
      spawnLoop ts c p fuel = Except.ok none := by
  intro fuel
  induction fuel with
  | zero =>
    intro p hp hd
    exfalso
    split at hd <;> omega
  | succ f ih =>
    intro p hp hd
    rw [spawnLoop]
    rcases Nat.lt_or_ge (p + 1) ts.length with hlt | hge
    · rw [if_neg (by omega : ¬ p + 1 ≥ ts.length)]
      by_cases h2 : p + 1 = c
      · rw [if_pos h2]
      · rw [if_neg h2]
        obtain ⟨t, hx⟩ : ∃ t, ts.get? (p + 1) = some t := by
          rcases hy : ts.get? (p + 1) with _ | t
          · exact absurd (List.get?_eq_none.1 hy) (by omega)
          · exact ⟨t, rfl⟩
        rw [hx]
        dsimp only
        have hna : ¬ t.state = ThreadState.Available := by
          have := hfull (p + 1) hlt h2
          rw [hx] at this
          simpa using this
        rw [if_neg hna]
        exact ih (p + 1) hlt (by split at hd <;> split <;> omega)
    · rw [if_pos hge]
      by_cases h2 : (0 : Nat) = c
      · rw [if_pos h2]
      · rw [if_neg h2]
        obtain ⟨t, hx⟩ : ∃ t, ts.get? 0 = some t := by
          rcases hy : ts.get? 0 with _ | t
          · exact absurd (List.get?_eq_none.1 hy) (by omega)
          · exact ⟨t, rfl⟩
        rw [hx]
        dsimp only
        have hna : ¬ t.state = ThreadState.Available := by
          have := hfull 0 (by omega) h2
          rw [hx] at this
          simpa using this
        rw [if_neg hna]
        exact ih 0 (by omega) (by split at hd <;> split <;> omega)

/-- C3 counterexample: on the full table `c3FullState` the spec's spawn
contract (`spawn_spec`, written from the spec's words) reports a `Full`
error, but the source's `Runtime::spawn` returns normally with no error
indication of any kind — its Rust signature returns `()` — so the claim
that spawn "returns a Full error to the caller" is false on the code. -/
theorem spawn_full_error_missing :
    spawn_spec c3FullState 42 = Except.error SpawnError.full ∧
    Runtime.spawn c3FullState 42 = Except.ok c3FullState :=
  ⟨rfl, rfl⟩

/-- C3 amended: for every scheduler state whose current index is in range
and in which no slot other than the current one is `Available`, `spawn`
returns normally (the Rust function returns `()`, signalling nothing) and
performs no mutation: the resulting state — every slot and
`current_index` — is exactly the input state, and the call does not
panic. -/
theorem spawn_full_no_mutation (r : Runtime) (e : Nat)
    (hc : r.current < r.threads.length)
    (hfull : ∀ i, i < r.threads.length → i ≠ r.current →
      (r.threads.get? i).map Thread.state ≠ some ThreadState.Available) :
    r.spawn e = Except.ok r := by
  unfold Runtime.spawn
  rw [spawnLoop_no_available hc hfull (r.threads.length + 2) r.current hc
    (by split <;> omega)]

/-- Witness for C3 at the concrete full table `c3FullState`. -/
theorem spawn_full_no_mutation_witness :
    c3FullState.spawn 42 = Except.ok c3FullState :=
  spawn_full_no_mutation c3FullState 42 (by decide) (by decide)

/-- What a successful switching yield does, in full: used both to settle
the claim about `yield_to_next` and to preserve the scheduler invariant.
When `get_next` returns `Ready` slot `n` and the current slot is a
readable `Running` entry, `yield_next` returns the switched state: same
table size, `current_index = n`, slot `n` set `Running`, the old current
slot set `Ready`, all other slots untouched, and the context-switch
primitive invoked towards `n`. -/
theorem yield_next_switch_spec (r : Runtime) (n : Nat)
    (hrun : (r.threads.get? r.current).map Thread.state = some ThreadState.Running)
    (hn : r.get_next = Except.ok (some n)) :
    ∃ r1, r.yield_next = Except.ok (r1, some n) ∧
      r1.threads.length = r.threads.length ∧
      r1.current = n ∧
      (r1.threads.get? n).map Thread.state = some ThreadState.Running ∧
      (r1.threads.get? r.current).map Thread.state = some ThreadState.Ready ∧
      ∀ i, i ≠ n → i ≠ r.current → r1.threads.get? i = r.threads.get? i := by
  obtain ⟨t, htn, hready⟩ := getNextLoop_ok_some _ _ _ hn
  have hnlen : n < r.threads.length := lt_length_of_get?_eq_some htn
  rcases hx : r.threads.get? r.current with _ | tcur
  · rw [hx] at hrun
    cases hrun
  · have hclen : r.current < r.threads.length := lt_length_of_get?_eq_some hx
    have hnc : n ≠ r.current := by
      intro he
      rw [he, hx] at htn
      injection htn with h1
      subst h1
      rw [hx] at hrun
      simp only [Option.map_some'] at hrun
      injection hrun with h2
      rw [hready] at h2
      cases h2
    refine ⟨⟨(r.threads.set r.current { tcur with state := ThreadState.Ready }).set n
        { t with state := ThreadState.Running }, n⟩, ?_, ?_, rfl, ?_, ?_, ?_⟩
    · unfold Runtime.yield_next
      rw [hn]
      dsimp only
      unfold Runtime.context_switch
      rw [hx]
      dsimp only
      rw [List.get?_set_ne _ _ (fun h => hnc h.symm), htn]
    · dsimp only
      rw [List.length_set, List.length_set]
    · dsimp only
      rw [List.get?_set_eq_of_lt]
      · rfl
      · rw [List.length_set]
        exact hnlen
    · dsimp only
      rw [List.get?_set_ne _ _ hnc, List.get?_set_eq_of_lt _ hclen]
      rfl
    · intro i hin hic
      dsimp only
      rw [List.get?_set_ne _ _ (fun h => hin h.symm),
        List.get?_set_ne _ _ (fun h => hic h.symm)]

/-- C9: whenever `yield_next` finds a next `Ready` slot `n`, it sets the
old current slot to `Ready`, the target slot `n` to `Running`, updates
`current_index` to `n`, leaves every other slot untouched, and invokes the
context-switch primitive towards `n` (the `some n` component). Stated for
any state whose current slot is a readable `Running` entry. -/
theorem yield_to_ready_switches (r : Runtime) (n : Nat)
    (hrun : (r.threads.get? r.current).map Thread.state = some ThreadState.Running)
    (hn : r.get_next = Except.ok (some n)) :
    ∃ r1, r.yield_next = Except.ok (r1, some n) ∧
      r1.current = n ∧
      (r1.threads.get? n).map Thread.state = some ThreadState.Running ∧
      (r1.threads.get? r.current).map Thread.state = some ThreadState.Ready ∧
      ∀ i, i ≠ n → i ≠ r.current → r1.threads.get? i = r.threads.get? i := by
  obtain ⟨r1, h1, _, h3, h4, h5, h6⟩ := yield_next_switch_spec r n hrun hn
  exact ⟨r1, h1, h3, h4, h5, h6⟩

/-- Witness for C9 at `c9State`: the yield switches to slot 1. -/
theorem yield_to_ready_switches_witness :
    ∃ r1, c9State.yield_next = Except.ok (r1, some 1) ∧
      r1.current = 1 ∧
      (r1.threads.get? 1).map Thread.state = some ThreadState.Running ∧
      (r1.threads.get? c9State.current).map Thread.state = some ThreadState.Ready ∧
      ∀ i, i ≠ 1 → i ≠ c9State.current → r1.threads.get? i = c9State.threads.get? i :=
  yield_to_ready_switches c9State 1 (by decide) rfl

/-- Destructuring a full-size task table into its eight slots. -/
theorem exists_eight_of_length {l : List Thread} (h : l.length = 8) :
    ∃ u0 u1 u2 u3 u4 u5 u6 u7, l = [u0, u1, u2, u3, u4, u5, u6, u7] := by
  match l, h with
  | [u0, u1, u2, u3, u4, u5, u6, u7], _ =>
    exact ⟨u0, u1, u2, u3, u4, u5, u6, u7, rfl⟩

/-- C5: on every iteration of the lifecycle tick loop in which the fetched
competition status differs from the last-observed value, the loop records
the new value, kills every task slot except the kernel task and the
currently executing task (the tick loop runs inside the kernel task, so
`current = 0` and those two coincide), and then spawns a fresh task bound
to the stored user entry point — it lands in slot 1, the first free slot
after the kernel, `Ready` with entry `e`; the kernel slot is untouched and
`current_index` unchanged. -/
theorem lifecycle_tick_on_change (r : Runtime) (saved fetched e : Nat)
    (hlen : r.threads.length = MAX_TASKS) (hc : r.current = 0)
    (hch : fetched ≠ saved) :
    (osTick r saved fetched e).2 = fetched ∧
    ((killExceptCurrent r).threads.get? 0 = r.threads.get? 0) ∧
    (∀ i, 0 < i → i < MAX_TASKS →
      ((killExceptCurrent r).threads.get? i).map Thread.state
        = some ThreadState.Available) ∧
    ((osTick r saved fetched e).1.threads.get? 0 = r.threads.get? 0) ∧
    ((osTick r saved fetched e).1.threads.get? 1 = some (Thread.init e)) ∧
    (∀ i, 1 < i → i < MAX_TASKS →
      ((osTick r saved fetched e).1.threads.get? i).map Thread.state
        = some ThreadState.Available) ∧
    (osTick r saved fetched e).1.current = r.current := by
  rcases r with ⟨ts, c⟩
  simp only at hc hlen
  subst hc
  obtain ⟨t0, t1, t2, t3, t4, t5, t6, t7, rfl⟩ := exists_eight_of_length hlen
  have hkill : killExceptCurrent ⟨[t0, t1, t2, t3, t4, t5, t6, t7], 0⟩ =
      ⟨[t0, { t1 with state := ThreadState.Available },
        { t2 with state := ThreadState.Available },
        { t3 with state := ThreadState.Available },
        { t4 with state := ThreadState.Available },
        { t5 with state := ThreadState.Available },
        { t6 with state := ThreadState.Available },
        { t7 with state := ThreadState.Available }], 0⟩ := rfl
  have hspawn : spawn_spec
      ⟨[t0, { t1 with state := ThreadState.Available },
        { t2 with state := ThreadState.Available },
        { t3 with state := ThreadState.Available },
        { t4 with state := ThreadState.Available },
        { t5 with state := ThreadState.Available },
        { t6 with state := ThreadState.Available },
        { t7 with state := ThreadState.Available }], 0⟩ e =
      Except.ok ⟨[t0, Thread.init e,
        { t2 with state := ThreadState.Available },
        { t3 with state := ThreadState.Available },
        { t4 with state := ThreadState.Available },
        { t5 with state := ThreadState.Available },
        { t6 with state := ThreadState.Available },
        { t7 with state := ThreadState.Available }], 0⟩ := rfl
  have hmain : osTick ⟨[t0, t1, t2, t3, t4, t5, t6, t7], 0⟩ saved fetched e =
      (⟨[t0, Thread.init e,
         { t2 with state := ThreadState.Available },
         { t3 with state := ThreadState.Available },
         { t4 with state := ThreadState.Available },
         { t5 with state := ThreadState.Available },
         { t6 with state := ThreadState.Available },
         { t7 with state := ThreadState.Available }], 0⟩, fetched) := by
    unfold osTick
    rw [if_pos hch, hkill, hspawn]
  refine ⟨?_, ?_, ?_, ?_, ?_, ?_, ?_⟩
  · rw [hmain]
  · rw [hkill]
    all_goals rfl
  · intro i h1 h2
    have h8 : i < 8 := h2
    rw [hkill]
    interval_cases i <;> rfl
  · rw [hmain]
    all_goals rfl
  · rw [hmain]
    all_goals rfl
  · intro i h1 h2
    have h8 : i < 8 := h2
    rw [hmain]
    interval_cases i <;> rfl
  · rw [hmain]

/-- Witness for C5 at `c5State` with the status changing from 0 to 1 and
user entry 77. -/
theorem lifecycle_tick_on_change_witness :
    (osTick c5State 0 1 77).2 = 1 ∧
    ((killExceptCurrent c5State).threads.get? 0 = c5State.threads.get? 0) ∧
    (∀ i, 0 < i → i < MAX_TASKS →
      ((killExceptCurrent c5State).threads.get? i).map Thread.state
        = some ThreadState.Available) ∧
    ((osTick c5State 0 1 77).1.threads.get? 0 = c5State.threads.get? 0) ∧
    ((osTick c5State 0 1 77).1.threads.get? 1 = some (Thread.init 77)) ∧
    (∀ i, 1 < i → i < MAX_TASKS →
      ((osTick c5State 0 1 77).1.threads.get? i).map Thread.state
        = some ThreadState.Available) ∧
    (osTick c5State 0 1 77).1.current = c5State.current :=
  lifecycle_tick_on_change c5State 0 1 77 rfl rfl (by decide)

/-- C10: for every `i32` input, `move_voltage` commands the hardware with
exactly the clamped value `max (-127) (min 127 v)`: inputs above 127 are
reduced to 127, inputs below -127 are raised to -127, and inputs already
in the interval are passed through unchanged. -/
theorem move_voltage_clamps (v : Int) (h1 : -(2 ^ 31) ≤ v) (h2 : v < 2 ^ 31) :
    SmartMotor.move_voltage v = max (-127) (min 127 v) ∧
    (127 < v → SmartMotor.move_voltage v = 127) ∧
    (v < -127 → SmartMotor.move_voltage v = -127) ∧
    (-127 ≤ v → v ≤ 127 → SmartMotor.move_voltage v = v) := by
  unfold SmartMotor.move_voltage
  refine ⟨?_, ?_, ?_, ?_⟩ <;> intros <;> omega

/-- Witness for C10 at the concrete inputs 200, -200 and 5. -/
theorem move_voltage_clamps_witness :
    SmartMotor.move_voltage 200 = 127 ∧
    SmartMotor.move_voltage (-200) = -127 ∧
    SmartMotor.move_voltage 5 = 5 :=
  ⟨(move_voltage_clamps 200 (by decide) (by decide)).2.1 (by decide),
   (move_voltage_clamps (-200) (by decide) (by decide)).2.2.1 (by decide),
   (move_voltage_clamps 5 (by decide) (by decide)).2.2.2 (by decide) (by decide)⟩

/-- The initial runtime satisfies the scheduler invariant. -/
theorem inv_new : Inv Runtime.new := by
  refine ⟨rfl, by decide, ?_⟩
  intro i hi
  have h8 : i < 8 := hi
  interval_cases i <;> decide

/-- Writing a slot's state never changes the table size. -/
theorem length_setState (ts : List Thread) (i : Nat) (st : ThreadState) :
    (setState ts i st).length = ts.length := by
  unfold setState
  split
  · rfl
  · rw [List.length_set]

/-- Every scheduler operation preserves the invariant. -/
theorem inv_preserved {r r1 : Runtime} (hInv : Inv r) (hs : Step r r1) : Inv r1 := by
  obtain ⟨hlen, hcur, hiff⟩ := hInv
  cases hs with
  | spawn e h =>
    unfold Runtime.spawn at h
    cases hsl : spawnLoop r.threads r.current r.current (r.threads.length + 2) with
    | error err =>
      rw [hsl] at h
      simp at h
    | ok o =>
      cases o with
      | none =>
        rw [hsl] at h
        simp only [Except.ok.injEq] at h
        subst h
        exact ⟨hlen, hcur, hiff⟩
      | some pos =>
        rw [hsl] at h
        simp only [Except.ok.injEq] at h
        subst h
        obtain ⟨hpos_ne, t, hget, hav⟩ := spawnLoop_ok_some _ _ _ hsl
        have hposlt := lt_length_of_get?_eq_some hget
        refine ⟨by simp only [List.length_set]; exact hlen, hcur, ?_⟩
        intro i hi
        by_cases hip : i = pos
        · subst hip
          simp only [List.get?_set_eq_of_lt _ hposlt, Option.map_some']
          constructor
          · intro hh
            cases hh
          · intro hh
            exact absurd hh hpos_ne
        · simp only [List.get?_set_ne _ _ (fun hh => hip hh.symm)]
          exact hiff i hi
  | yieldNext o h =>
    have hrun : (r.threads.get? r.current).map Thread.state
        = some ThreadState.Running := (hiff r.current hcur).2 rfl
    cases hgn : r.get_next with
    | error err =>
      unfold Runtime.yield_next at h
      rw [hgn] at h
      simp at h
    | ok oo =>
      cases oo with
      | none =>
        unfold Runtime.yield_next at h
        rw [hgn] at h
        simp only [Except.ok.injEq, Prod.mk.injEq] at h
        obtain ⟨h1, h2⟩ := h
        subst h1
        exact ⟨hlen, hcur, hiff⟩
      | some n =>
        obtain ⟨r2, heq, hlen2, hcur2, hrunn, hreadyc, hother⟩ :=
          yield_next_switch_spec r n hrun hgn
        rw [heq] at h
        simp only [Except.ok.injEq, Prod.mk.injEq] at h
        obtain ⟨h1, h2⟩ := h
        subst h1
        have hnlt : n < r.threads.length := by
          rcases hy : r2.threads.get? n with _ | t2
          · rw [hy] at hrunn
            cases hrunn
          · have := lt_length_of_get?_eq_some hy
            rw [hlen2] at this
            exact this
        refine ⟨by rw [hlen2]; exact hlen, by rw [hcur2, ← hlen]; exact hnlt, ?_⟩
        intro i hi
        rw [hcur2]
        by_cases hin : i = n
        · subst hin
          rw [hrunn]
          simp
        · by_cases hic : i = r.current
          · subst hic
            rw [hreadyc]
            constructor
            · intro hh
              cases hh
            · intro hh
              exact absurd hh hin
          · rw [hother i hin hic]
            constructor
            · intro hh
              exact absurd ((hiff i hi).1 hh) hic
            · intro hh
              exact absurd hh hin
  | kill i h1 h2 =>
    unfold Runtime.kill_task
    unfold setState
    cases hx : r.threads.get? i with
    | none =>
      exact ⟨hlen, hcur, hiff⟩
    | some t =>
      have hilt := lt_length_of_get?_eq_some hx
      refine ⟨by simp only [List.length_set]; exact hlen, hcur, ?_⟩
      intro j hj
      by_cases hji : j = i
      · subst hji
        simp only [List.get?_set_eq_of_lt _ hilt, Option.map_some']
        constructor
        · intro hh
          cases hh
        · intro hh
          exact absurd hh h1
      · simp only [List.get?_set_ne _ _ (fun hh => hji hh.symm)]
        exact hiff j hj

/-- C2: in every scheduler state reachable from `Runtime::new` by any
sequence of spawn, yield/context-switch and kill operations (observed
outside the transient interior of a context switch), a slot is `Running`
exactly when it is the slot at `current_index` — so exactly one slot is
`Running`, and it is the current one — and `current_index` stays within
the fixed task table. -/
theorem single_runner_invariant (r : Runtime) (h : Reachable r) :
    r.current < r.threads.length ∧
    ∀ i, ((r.threads.get? i).map Thread.state = some ThreadState.Running
      ↔ i = r.current) := by
  have hInv : Inv r := by
    induction h with
    | init => exact inv_new
    | step hr hs ih => exact inv_preserved ih hs
  obtain ⟨hlen, hcur, hiff⟩ := hInv
  refine ⟨by rw [hlen]; exact hcur, ?_⟩
  intro i
  by_cases hi : i < MAX_THREADS
  · exact hiff i hi
  · constructor
    · intro hmap
      rw [List.get?_eq_none.2 (by rw [hlen]; omega)] at hmap
      cases hmap
    · intro he
      subst he
      exact absurd hcur hi

/-- Witness for C2 at the concrete reachable state `c2State`
(`Runtime::new`, then a spawn, then a yield). -/
theorem single_runner_invariant_witness :
    c2State.current < c2State.threads.length ∧
    ∀ i, ((c2State.threads.get? i).map Thread.state = some ThreadState.Running
      ↔ i = c2State.current) :=
  single_runner_invariant c2State
    (Reachable.step (Reachable.step Reachable.init (Step.spawn 5 rfl))
      (Step.yieldNext (some 1) rfl))

end Ceros

